import Mathlib

/-
Verification of the demo-recorder animation engine, recording orchestrator
and CLI conversion fallback.  The definitions below are a shallow embedding
of the TypeScript sources: each helper of PlaywrightRecorder becomes a pure
function from the observable page state (does the selector match, what is
the bounding box, where does the fake cursor sit) to the list of effects it
performs, together with the exception it would propagate (none when the
helper returns normally).  Coordinates and durations are rationals.
-/

namespace DemoRecorder

/-- Observable effects emitted by the recorder and its animation helpers. -/
inductive Event where
  | warn (msg : String)
  | consoleWarn (msg : String)
  | overlay
  | ripple
  | zoomOverlay (scale : ℚ)
  | wait (ms : ℚ)
  | cursorUpdate (x y : ℚ)
  | mouseMove (x y : ℚ)
  | keyType (c : Char)
  | click
  | launchBrowser
  | newContext
  | gotoUrl
  | runDemo
  | closeContext
  | closeBrowser
  | cleanupEnter
  deriving DecidableEq, Repr

/-- True for the two kinds of logged warnings: logger.warn in the recorder
process and console.warn inside the page. -/
def Event.isWarning : Event → Bool
  | .warn _ => true
  | .consoleWarn _ => true
  | _ => false

/-- True for the highlight-overlay creation effect. -/
def Event.isOverlay : Event → Bool
  | .overlay => true
  | _ => false

/-- True for a visual-cursor position update. -/
def Event.isCursorUpdate : Event → Bool
  | .cursorUpdate _ _ => true
  | _ => false

/-- True for a keyboard character-input call. -/
def Event.isKeyType : Event → Bool
  | .keyType _ => true
  | _ => false

/-- True for a waitForTimeout call. -/
def Event.isWait : Event → Bool
  | .wait _ => true
  | _ => false

/-- Result of one helper call: the effects it performed in order, and the
exception it is about to propagate (none when it returns normally). -/
structure Outcome where
  events : List Event
  thrown : Option String
  deriving DecidableEq, Repr

/-- The try/catch wrapper every animation helper uses: a thrown error is
downgraded to a logger.warn and the helper returns normally. -/
def catchAll (o : Outcome) (warnMsg : String) : Outcome :=
  match o.thrown with
  | none => o
  | some _ => { events := o.events ++ [Event.warn warnMsg], thrown := none }

/-- A DOM rectangle as returned by getBoundingClientRect / boundingBox. -/
structure Rect where
  x : ℚ
  y : ℚ
  width : ℚ
  height : ℚ
  deriving DecidableEq, Repr

/-- What the page reports for one selector when the element exists: its
client rectangle, and its Playwright bounding box (which may be null). -/
structure PageElem where
  clientRect : Rect
  box : Option Rect
  deriving DecidableEq, Repr

/-- Horizontal center of a box: box.x + box.width / 2. -/
def Rect.centerX (b : Rect) : ℚ := b.x + b.width / 2

/-- Vertical center of a box: box.y + box.height / 2. -/
def Rect.centerY (b : Rect) : ℚ := b.y + b.height / 2

/-- The fake-cursor element style as read back from the page: the result of
parseFloat on style.left and style.top (none models NaN). -/
structure CursorStyle where
  left : Option ℚ
  top : Option ℚ
  deriving DecidableEq, Repr

/-- JavaScript `v || d`: the default is taken when v is NaN or 0. -/
def jsOr (v : Option ℚ) (d : ℚ) : ℚ :=
  match v with
  | none => d
  | some x => if x = 0 then d else x

/-- Current cursor position as moveTo reads it:
`parseFloat(cursor.style.left) || 100` on each axis, and (100, 100) when the
cursor element does not exist. -/
def readCursorPos (cursor : Option CursorStyle) : ℚ × ℚ :=
  match cursor with
  | none => (100, 100)
  | some c => (jsOr c.left 100, jsOr c.top 100)

/-- Ease-out cubic at step i of steps: 1 - (1 - i/steps)^3. -/
def easedAt (steps i : ℕ) : ℚ := 1 - (1 - (i : ℚ) / (steps : ℚ)) ^ 3

/-- One interpolated position: cur + (tgt - cur) * eased, per axis. -/
def interpPoint (cur tgt : ℚ × ℚ) (e : ℚ) : ℚ × ℚ :=
  (cur.1 + (tgt.1 - cur.1) * e, cur.2 + (tgt.2 - cur.2) * e)

/-- The interpolation sequence of moveTo: positions for i = 1..steps. -/
def moveToPositions (cur tgt : ℚ × ℚ) (steps : ℕ) : List (ℚ × ℚ) :=
  (List.range steps).map fun k => interpPoint cur tgt (easedAt steps (k + 1))

/-- Effects of one loop iteration of moveTo: update the visual cursor,
move the real pointer, wait stepDelay. -/
def moveStepEvents (stepDelay : ℚ) (p : ℚ × ℚ) : List Event :=
  [Event.cursorUpdate p.1 p.2, Event.mouseMove p.1 p.2, Event.wait stepDelay]

/-- Body of PlaywrightRecorder.moveTo: warn and return if the element is
missing, return silently if its bounding box is null, otherwise animate
from the current cursor position to the element center. -/
def moveToBody (elem : Option PageElem) (cursor : Option CursorStyle)
    (duration : ℚ) (steps : ℕ) : Outcome :=
  match elem with
  | none => { events := [Event.warn "Element not found for moveTo"], thrown := none }
  | some e =>
    match e.box with
    | none => { events := [], thrown := none }
    | some box =>
      let tgt : ℚ × ℚ := (Rect.centerX box, Rect.centerY box)
      let cur := readCursorPos cursor
      let stepDelay := duration / (steps : ℚ)
      { events := (moveToPositions cur tgt steps).flatMap (moveStepEvents stepDelay),
        thrown := none }

/-- PlaywrightRecorder.moveTo.  Defaults in the source: duration 500, steps 20. -/
def moveTo (elem : Option PageElem) (cursor : Option CursorStyle)
    (duration : ℚ) (steps : ℕ) : Outcome :=
  catchAll (moveToBody elem cursor duration steps) "Failed to move to element"

/-- Body of PlaywrightRecorder.highlightElement: the injected page function
warns and returns early when the selector matches nothing, otherwise it
creates the overlay; in both cases the recorder then waits
durationMs + 200. -/
def highlightBody (elem : Option PageElem) (durationMs : ℚ) : Outcome :=
  match elem with
  | none =>
    { events := [Event.consoleWarn "Highlight: Element not found for selector",
        Event.wait (durationMs + 200)],
      thrown := none }
  | some _ =>
    { events := [Event.overlay, Event.wait (durationMs + 200)], thrown := none }

/-- PlaywrightRecorder.highlightElement.  Default durationMs is 500. -/
def highlightElement (elem : Option PageElem) (durationMs : ℚ) : Outcome :=
  catchAll (highlightBody elem durationMs) "Failed to highlight element"

/-- Body of PlaywrightRecorder.zoomHighlight: the injected page function
returns silently when the selector matches nothing (no console.warn in the
source); in both cases the recorder then waits the full duration. -/
def zoomBody (elem : Option PageElem) (scale duration : ℚ) : Outcome :=
  match elem with
  | none => { events := [Event.wait duration], thrown := none }
  | some _ => { events := [Event.zoomOverlay scale, Event.wait duration], thrown := none }

/-- PlaywrightRecorder.zoomHighlight.  Defaults: scale 1.05, duration 600. -/
def zoomHighlight (elem : Option PageElem) (scale duration : ℚ) : Outcome :=
  catchAll (zoomBody elem scale duration) "Failed to zoom highlight element"

/-- Per-character delay before flooring:
delay + Math.floor(r * variation * 2) - variation, with r the draw of
Math.random() for this character. -/
def charDelay (delay variation : ℚ) (r : ℚ) : ℚ :=
  delay + ((⌊r * variation * 2⌋ : ℤ) : ℚ) - variation

/-- The random jitter added to the configured delay for one character:
Math.floor(r * variation * 2) - variation. -/
def jitterOf (variation r : ℚ) : ℚ :=
  ((⌊r * variation * 2⌋ : ℤ) : ℚ) - variation

/-- The typing loop of typeAnimated: one keyboard.type call per character,
each followed by waitForTimeout(Math.max(10, actualDelay)); the i-th
character consumes the i-th random draw. -/
def typeEvents (delay variation : ℚ) (rands : ℕ → ℚ) : List Char → ℕ → List Event
  | [], _ => []
  | c :: cs, i =>
    Event.keyType c ::
      Event.wait (max 10 (charDelay delay variation (rands i))) ::
        typeEvents delay variation rands cs (i + 1)

/-- Body of PlaywrightRecorder.typeAnimated: page.click(selector) throws a
timeout when the selector matches nothing; on success it waits 100ms and
runs the typing loop. -/
def typeAnimatedBody (elem : Option PageElem) (text : List Char)
    (delay variation : ℚ) (rands : ℕ → ℚ) : Outcome :=
  match elem with
  | none => { events := [], thrown := some "page.click timed out" }
  | some _ =>
    { events := Event.click :: Event.wait 100 :: typeEvents delay variation rands text 0,
      thrown := none }

/-- PlaywrightRecorder.typeAnimated.  Defaults: delay 50, variation 20. -/
def typeAnimated (elem : Option PageElem) (text : List Char)
    (delay variation : ℚ) (rands : ℕ → ℚ) : Outcome :=
  catchAll (typeAnimatedBody elem text delay variation rands) "Failed to type in element"

/-- Body of PlaywrightRecorder.clickAnimated: moveTo (itself non-throwing),
hover wait, ripple injection (silent no-op when the element is missing),
then page.click(selector), which throws when the selector matches
nothing. -/
def clickAnimatedBody (elem : Option PageElem) (cursor : Option CursorStyle)
    (hoverDuration moveDuration : ℚ) : Outcome :=
  let mv := moveTo elem cursor moveDuration 20
  match elem with
  | none =>
    { events := mv.events ++ [Event.wait hoverDuration],
      thrown := some "page.click timed out" }
  | some _ =>
    { events := mv.events ++ [Event.wait hoverDuration] ++ [Event.ripple] ++ [Event.click],
      thrown := none }

/-- PlaywrightRecorder.clickAnimated.  Defaults: hoverDuration 200,
moveDuration 400. -/
def clickAnimated (elem : Option PageElem) (cursor : Option CursorStyle)
    (hoverDuration moveDuration : ℚ) : Outcome :=
  catchAll (clickAnimatedBody elem cursor hoverDuration moveDuration) "Failed to click element"

/-- The visual-cursor positions emitted by a trace, in order. -/
def cursorUpdates (evs : List Event) : List (ℚ × ℚ) :=
  evs.filterMap fun e =>
    match e with
    | Event.cursorUpdate x y => some (x, y)
    | _ => none

/-- The wait immediately following each keyboard character input. -/
def keyWaits : List Event → List ℚ
  | Event.keyType _ :: Event.wait w :: rest => w :: keyWaits rest
  | _ :: rest => keyWaits rest
  | [] => []

/-- The characters of the ".webm" extension. -/
def webmSuffix : List Char := ".webm".toList

/-- The characters of the ".mp4" extension. -/
def mp4Suffix : List Char := ".mp4".toList

/-- convertToMp4 output path when no explicit outputPath is given:
inputPath.replace of a trailing ".webm" by ".mp4". -/
def replaceWebmWithMp4 (inputPath : List Char) : List Char :=
  if webmSuffix.isSuffixOf inputPath then
    inputPath.take (inputPath.length - 5) ++ mp4Suffix
  else inputPath

/-- PlaywrightRecorder.findRecordedVideo: the first file of the video
directory whose name ends in ".webm", joined to the directory; none models
the thrown "No video file found" error. -/
def findRecordedVideo (dir : List Char) (files : List (List Char)) : Option (List Char) :=
  match files.find? (fun f => webmSuffix.isSuffixOf f) with
  | none => none
  | some f => some (dir ++ '/' :: f)

/-- What the record command reports at the end of a successful run. -/
structure CliReport where
  warnings : List String
  finalPath : List Char
  deriving DecidableEq, Repr

/-- The spinner warning emitted when FFmpeg is missing. -/
def ffmpegMissingWarning : String := "FFmpeg not found - video will be saved as WebM"

/-- The conversion tail of recordCommand: warn when conversion is requested
but FFmpeg is absent, and transcode (rewriting the extension) only when
conversion is requested and FFmpeg is present.  The source checks FFmpeg
twice with the same result; one boolean models both checks. -/
def recordCommandFinalize (convert ffmpegInstalled : Bool) (videoPath : List Char) : CliReport :=
  let preWarnings := if convert && !ffmpegInstalled then [ffmpegMissingWarning] else []
  let finalPath := if convert && ffmpegInstalled then replaceWebmWithMp4 videoPath else videoPath
  { warnings := preWarnings, finalPath := finalPath }

/-- Which steps of PlaywrightRecorder.record succeed in one invocation. -/
structure RecEnv where
  launchOk : Bool
  newContextOk : Bool
  newPageOk : Bool
  gotoOk : Bool
  runOk : Bool
  finalCloseOk : Bool
  videoFound : Bool
  deriving DecidableEq, Repr

/-- The two resource fields of PlaywrightRecorder (some () is a live
handle, none is null). -/
structure RecState where
  browser : Option Unit
  context : Option Unit
  deriving DecidableEq, Repr

/-- Result of one record invocation: the error it propagates (none on
normal completion), the final field state, and the effect trace. -/
structure RecOutcome where
  error : Option String
  state : RecState
  events : List Event
  deriving DecidableEq, Repr

/-- The try block of PlaywrightRecorder.record, stopping at the first
failing step with the fields as they stand at that point.  On the success
path the context is closed and nulled before the video file is looked
up. -/
def recordBody (env : RecEnv) : RecOutcome :=
  if !env.launchOk then
    { error := some "browser launch failed",
      state := { browser := none, context := none }, events := [] }
  else if !env.newContextOk then
    { error := some "newContext failed",
      state := { browser := some (), context := none },
      events := [Event.launchBrowser] }
  else if !env.newPageOk then
    { error := some "newPage failed",
      state := { browser := some (), context := some () },
      events := [Event.launchBrowser, Event.newContext] }
  else if !env.gotoOk then
    { error := some "goto failed",
      state := { browser := some (), context := some () },
      events := [Event.launchBrowser, Event.newContext] }
  else if !env.runOk then
    { error := some "demo script failed",
      state := { browser := some (), context := some () },
      events := [Event.launchBrowser, Event.newContext, Event.gotoUrl] }
  else if !env.finalCloseOk then
    { error := some "context close failed",
      state := { browser := some (), context := some () },
      events := [Event.launchBrowser, Event.newContext, Event.gotoUrl, Event.runDemo] }
  else if !env.videoFound then
    { error := some "No video file found",
      state := { browser := some (), context := none },
      events := [Event.launchBrowser, Event.newContext, Event.gotoUrl, Event.runDemo,
        Event.closeContext] }
  else
    { error := none,
      state := { browser := some (), context := none },
      events := [Event.launchBrowser, Event.newContext, Event.gotoUrl, Event.runDemo,
        Event.closeContext] }

/-- PlaywrightRecorder.cleanup: close the context if still held (errors
ignored) and null the field, then the same for the browser. -/
def cleanup (s : RecState) : RecState × List Event :=
  let p1 : RecState × List Event :=
    match s.context with
    | some _ => ({ s with context := none }, [Event.closeContext])
    | none => (s, [])
  let p2 : RecState × List Event :=
    match p1.1.browser with
    | some _ => ({ p1.1 with browser := none }, p1.2 ++ [Event.closeBrowser])
    | none => (p1.1, p1.2)
  (p2.1, Event.cleanupEnter :: p2.2)

/-- PlaywrightRecorder.record: the try body followed unconditionally by
cleanup (the finally block), whether or not the body failed. -/
def record (env : RecEnv) : RecOutcome :=
  let body := recordBody env
  let c := cleanup body.state
  { error := body.error, state := c.1, events := body.events ++ c.2 }

theorem moveToPositions_length (cur tgt : ℚ × ℚ) (steps : ℕ) :
    (moveToPositions cur tgt steps).length = steps := by
  simp [moveToPositions]

theorem easedAt_self (steps : ℕ) (h : 1 ≤ steps) : easedAt steps steps = 1 := by
  have hs : ((steps : ℚ)) ≠ 0 := Nat.cast_ne_zero.mpr (by omega)
  simp [easedAt, div_self hs]

theorem interpPoint_one (cur tgt : ℚ × ℚ) : interpPoint cur tgt 1 = tgt := by
  cases tgt
  simp only [interpPoint, mul_one, Prod.mk.injEq]
  constructor <;> ring

theorem moveToPositions_getLast (cur tgt : ℚ × ℚ) (steps : ℕ) (h : 1 ≤ steps) :
    (moveToPositions cur tgt steps).getLast? = some tgt := by
  rw [List.getLast?_eq_getElem?, moveToPositions_length]
  have hlt : steps - 1 < steps := by omega
  rw [moveToPositions, List.getElem?_map, List.getElem?_range hlt]
  have hs : steps - 1 + 1 = steps := by omega
  simp [hs, easedAt_self steps h, interpPoint_one]

theorem cursorUpdates_flatMap (d : ℚ) (l : List (ℚ × ℚ)) :
    cursorUpdates (l.flatMap (moveStepEvents d)) = l := by
  induction l with
  | nil => rfl
  | cons p rest ih =>
    simp only [cursorUpdates] at ih ⊢
    rw [List.flatMap_cons, List.filterMap_append, ih]
    simp [moveStepEvents]

theorem wait_mem_moveStep (d w : ℚ) (l : List (ℚ × ℚ))
    (h : Event.wait w ∈ l.flatMap (moveStepEvents d)) : w = d := by
  rw [List.mem_flatMap] at h
  obtain ⟨p, _, hp⟩ := h
  simp [moveStepEvents] at hp
  exact hp

/-- C2: for every steps ≥ 1 and duration ≥ 0, and any start position and
target element, the interpolation sequence performed by moveTo ends exactly
at the target center: at the final step progress = 1, the ease-out cubic
gives eased = 1, and the emitted position equals the center of the
bounding box of the element. -/
theorem moveTo_final_position (cr box : Rect) (cursor : Option CursorStyle)
    (duration : ℚ) (steps : ℕ) (hsteps : 1 ≤ steps) (hdur : 0 ≤ duration) :
    (cursorUpdates (moveTo (some ⟨cr, some box⟩) cursor duration steps).events).getLast? =
      some (Rect.centerX box, Rect.centerY box) := by
  have hev : (moveTo (some ⟨cr, some box⟩) cursor duration steps).events =
      (moveToPositions (readCursorPos cursor) (Rect.centerX box, Rect.centerY box)
        steps).flatMap (moveStepEvents (duration / (steps : ℚ))) := rfl
  rw [hev, cursorUpdates_flatMap, moveToPositions_getLast _ _ _ hsteps]

/-- C2 witness: moving from the default (100, 100) start to a box centered
at (300, 200) in 20 steps of a 500ms animation ends at (300, 200). -/
theorem moveTo_final_position_witness :
    (cursorUpdates (moveTo (some ⟨⟨0, 0, 0, 0⟩, some ⟨250, 150, 100, 100⟩⟩)
      none 500 20).events).getLast? = some (300, 200) := by
  have h := moveTo_final_position ⟨0, 0, 0, 0⟩ ⟨250, 150, 100, 100⟩ none 500 20
    (by norm_num) (by norm_num)
  norm_num [Rect.centerX, Rect.centerY] at h
  exact h

/-- C4: for every steps ≥ 1 the eased value 1 - (1 - i/steps)^3 computed by
moveTo is monotonically non-decreasing as the step index i increases over
1..steps. -/
theorem easedAt_monotone (steps i j : ℕ) (h1 : 1 ≤ i) (hij : i ≤ j) (hj : j ≤ steps) :
    easedAt steps i ≤ easedAt steps j := by
  have hs0 : 0 < steps := by omega
  have hsq : (0 : ℚ) < (steps : ℚ) := by exact_mod_cast hs0
  have hij' : ((i : ℚ)) ≤ (j : ℚ) := by exact_mod_cast hij
  have hj' : ((j : ℚ)) ≤ (steps : ℚ) := by exact_mod_cast hj
  have ha : (0 : ℚ) ≤ 1 - (j : ℚ) / (steps : ℚ) := by
    have := (div_le_one hsq).mpr hj'
    linarith
  have hab : 1 - (j : ℚ) / (steps : ℚ) ≤ 1 - (i : ℚ) / (steps : ℚ) := by
    have := (div_le_div_iff_of_pos_right hsq).mpr hij'
    linarith
  have hpow := pow_le_pow_left₀ ha hab 3
  simp only [easedAt]
  linarith

/-- C4 witness: with 3 steps the eased value at step 1 is at most the eased
value at step 2. -/
theorem easedAt_monotone_witness : easedAt 3 1 ≤ easedAt 3 2 :=
  easedAt_monotone 3 1 2 (by norm_num) (by norm_num) (by norm_num)

/-- C5: a successful moveTo performs exactly `steps` cursor position
updates, every wait it performs is duration/steps, and the last emitted
position is the target center. -/
theorem moveTo_trace (cr box : Rect) (cursor : Option CursorStyle) (duration : ℚ)
    (steps : ℕ) (hsteps : 1 ≤ steps) :
    (cursorUpdates (moveTo (some ⟨cr, some box⟩) cursor duration steps).events).length =
      steps ∧
    (∀ w : ℚ, Event.wait w ∈ (moveTo (some ⟨cr, some box⟩) cursor duration steps).events →
      w = duration / (steps : ℚ)) ∧
    (cursorUpdates (moveTo (some ⟨cr, some box⟩) cursor duration steps).events).getLast? =
      some (Rect.centerX box, Rect.centerY box) := by
  have hev : (moveTo (some ⟨cr, some box⟩) cursor duration steps).events =
      (moveToPositions (readCursorPos cursor) (Rect.centerX box, Rect.centerY box)
        steps).flatMap (moveStepEvents (duration / (steps : ℚ))) := rfl
  refine ⟨?_, ?_, ?_⟩
  · rw [hev, cursorUpdates_flatMap, moveToPositions_length]
  · intro w hw
    rw [hev] at hw
    exact wait_mem_moveStep _ _ _ hw
  · rw [hev, cursorUpdates_flatMap, moveToPositions_getLast _ _ _ hsteps]

/-- C5 witness: moveTo with duration 500 and 20 steps, starting from the
default cursor position (100, 100) towards a box centered at (300, 200),
produces 20 position updates, every per-step delay is 25ms, and the final
position is (300, 200). -/
theorem moveTo_trace_witness :
    (cursorUpdates (moveTo (some ⟨⟨0, 0, 0, 0⟩, some ⟨250, 150, 100, 100⟩⟩)
      none 500 20).events).length = 20 ∧
    (∀ w : ℚ, Event.wait w ∈ (moveTo (some ⟨⟨0, 0, 0, 0⟩, some ⟨250, 150, 100, 100⟩⟩)
      none 500 20).events → w = 25) ∧
    (cursorUpdates (moveTo (some ⟨⟨0, 0, 0, 0⟩, some ⟨250, 150, 100, 100⟩⟩)
      none 500 20).events).getLast? = some (300, 200) := by
  obtain ⟨h1, h2, h3⟩ := moveTo_trace ⟨0, 0, 0, 0⟩ ⟨250, 150, 100, 100⟩ none 500 20
    (by norm_num)
  refine ⟨h1, ?_, ?_⟩
  · intro w hw
    rw [h2 w hw]
    norm_num
  · norm_num [Rect.centerX, Rect.centerY] at h3
    exact h3

/-- C10: when the fake cursor element exists but a stored style coordinate
parses to 0, the start position used by moveTo on that axis is 100 — the
same value as the default used when the cursor was never set — and the
whole moveTo trace equals the trace of an absent cursor. -/
theorem moveTo_zero_style_uses_default (l t : Option ℚ) (elem : Option PageElem)
    (duration : ℚ) (steps : ℕ) :
    (readCursorPos (some ⟨some 0, t⟩)).1 = 100 ∧
    (readCursorPos (some ⟨l, some 0⟩)).2 = 100 ∧
    moveTo elem (some ⟨some 0, some 0⟩) duration steps = moveTo elem none duration steps := by
  refine ⟨by simp [readCursorPos, jsOr], by simp [readCursorPos, jsOr], ?_⟩
  have hcur : readCursorPos (some ⟨some 0, some 0⟩) = readCursorPos none := by
    simp [readCursorPos, jsOr]
  cases elem with
  | none => rfl
  | some e =>
    cases hb : e.box with
    | none => simp [moveTo, moveToBody, hb]
    | some box => simp [moveTo, moveToBody, hb, hcur]

/-- C1 counterexample: highlight of a selector matching no element at
durationMs 500 still performs the 700ms wait, contradicting the claim that
the missing-element path incurs no such wait. -/
theorem highlight_missing_waits_anyway :
    Event.wait 700 ∈ (highlightElement none 500).events := by
  have h : (500 : ℚ) + 200 = 700 := by norm_num
  simp [highlightElement, highlightBody, catchAll, h]

/-- C1 amended: highlight on a selector matching no element logs a warning
(console.warn inside the page), creates no overlay, returns normally, and
still incurs the durationMs + 200 wait, exactly as the success path
does. -/
theorem highlight_missing_behavior (d : ℚ) :
    (highlightElement none d).thrown = none ∧
    (highlightElement none d).events.any Event.isWarning = true ∧
    (highlightElement none d).events.countP Event.isOverlay = 0 ∧
    Event.wait (d + 200) ∈ (highlightElement none d).events := by
  refine ⟨rfl, rfl, rfl, ?_⟩
  simp [highlightElement, highlightBody, catchAll]

/-- C3 counterexample: zoomHighlight at its default options on a selector
matching no element completes normally yet logs no warning at all,
contradicting the claim that every one of the five helpers logs one. -/
theorem zoom_missing_no_warning :
    (zoomHighlight none (105 / 100) 600).thrown = none ∧
    (zoomHighlight none (105 / 100) 600).events.any Event.isWarning = false :=
  ⟨rfl, rfl⟩

/-- C3 amended: on a selector matching no element, each of the five helpers
completes normally (never raises to the caller); highlight, moveTo,
typeAnimated and clickAnimated log a warning, while zoomHighlight completes
silently without logging one. -/
theorem helpers_never_raise_on_missing (d du hd md dl v sc zd : ℚ) (steps : ℕ)
    (text : List Char) (rands : ℕ → ℚ) (cursor : Option CursorStyle) :
    ((highlightElement none d).thrown = none ∧
      (highlightElement none d).events.any Event.isWarning = true) ∧
    ((moveTo none cursor du steps).thrown = none ∧
      (moveTo none cursor du steps).events.any Event.isWarning = true) ∧
    ((typeAnimated none text dl v rands).thrown = none ∧
      (typeAnimated none text dl v rands).events.any Event.isWarning = true) ∧
    ((clickAnimated none cursor hd md).thrown = none ∧
      (clickAnimated none cursor hd md).events.any Event.isWarning = true) ∧
    ((zoomHighlight none sc zd).thrown = none ∧
      (zoomHighlight none sc zd).events.any Event.isWarning = false) :=
  ⟨⟨rfl, rfl⟩, ⟨rfl, rfl⟩, ⟨rfl, rfl⟩, ⟨rfl, rfl⟩, ⟨rfl, rfl⟩⟩

theorem cleanup_resets (s : RecState) :
    (cleanup s).1.context = none ∧ (cleanup s).1.browser = none ∧
      Event.cleanupEnter ∈ (cleanup s).2 := by
  rcases s with ⟨b, c⟩
  cases b <;> cases c <;> simp [cleanup]

/-- C9: on every exit path of record — normal completion, demo-script
failure, or any error during setup or finalization — the cleanup routine
runs, and afterwards both the context and the browser field are null. -/
theorem record_always_cleans (env : RecEnv) :
    (record env).state.context = none ∧ (record env).state.browser = none ∧
      Event.cleanupEnter ∈ (record env).events := by
  have h := cleanup_resets (recordBody env).state
  refine ⟨h.1, h.2.1, ?_⟩
  simp only [record]
  exact List.mem_append_right _ h.2.2

theorem keyWaits_typeEvents (delay variation : ℚ) (rands : ℕ → ℚ) :
    ∀ (text : List Char) (i : ℕ),
      keyWaits (typeEvents delay variation rands text i) =
        (List.range text.length).map
          fun k => max 10 (charDelay delay variation (rands (i + k))) := by
  intro text
  induction text with
  | nil => intro i; rfl
  | cons c cs ih =>
    intro i
    rw [typeEvents]
    rw [show keyWaits (Event.keyType c ::
        Event.wait (max 10 (charDelay delay variation (rands i))) ::
          typeEvents delay variation rands cs (i + 1)) =
      max 10 (charDelay delay variation (rands i)) ::
        keyWaits (typeEvents delay variation rands cs (i + 1)) from rfl]
    rw [ih (i + 1)]
    rw [List.length_cons, List.range_succ_eq_map, List.map_cons, List.map_map]
    refine congrArg₂ List.cons ?_ ?_
    · rw [Nat.add_zero]
    · refine List.map_congr_left fun k _ => ?_
      simp only [Function.comp_apply, Nat.succ_eq_add_one]
      have h2 : i + (k + 1) = (i + 1) + k := by omega
      rw [h2]

theorem countP_keyType_typeEvents (delay variation : ℚ) (rands : ℕ → ℚ) :
    ∀ (text : List Char) (i : ℕ),
      (typeEvents delay variation rands text i).countP Event.isKeyType = text.length := by
  intro text
  induction text with
  | nil => intro i; rfl
  | cons c cs ih =>
    intro i
    simp [typeEvents, List.countP_cons, ih (i + 1), Event.isKeyType]

theorem keyWaits_after_click (delay variation : ℚ) (rands : ℕ → ℚ) (text : List Char) :
    keyWaits (Event.click :: Event.wait 100 :: typeEvents delay variation rands text 0) =
      keyWaits (typeEvents delay variation rands text 0) := by
  rfl

theorem charDelay_bounds (r : ℚ) (h0 : 0 ≤ r) (h1 : r < 1) :
    30 ≤ charDelay 50 20 r ∧ charDelay 50 20 r ≤ 69 := by
  have hprod : r * 20 * 2 = 40 * r := by ring
  have hf0 : (0 : ℤ) ≤ ⌊r * 20 * 2⌋ := by
    apply Int.floor_nonneg.mpr
    rw [hprod]
    positivity
  have hf1 : ⌊r * 20 * 2⌋ < 40 := by
    apply Int.floor_lt.mpr
    rw [hprod]
    push_cast
    linarith
  have hc0 : ((0 : ℤ) : ℚ) ≤ ((⌊r * 20 * 2⌋ : ℤ) : ℚ) := by exact_mod_cast hf0
  have hc1 : ((⌊r * 20 * 2⌋ : ℤ) : ℚ) ≤ ((39 : ℤ) : ℚ) := by
    exact_mod_cast (by omega : ⌊r * 20 * 2⌋ ≤ 39)
  constructor <;> (simp only [charDelay]; push_cast at hc0 hc1 ⊢; linarith)

/-- C6: a successful typeAnimated call, for every configured delay and
variation, issues exactly one keyboard-input call per character of the
text; the wait following the i-th character is
max 10 (delay + jitter i) where jitter i = floor(rᵢ·variation·2) -
variation is computed from the random draw rᵢ made for that character
alone (a fresh draw per character, not one per string); for nonnegative
variation every jitter lies in [-variation, variation], and at the example
configuration delay 50 and variation 20 every wait lies in [30, 70]. -/
theorem typeAnimated_per_char (e : PageElem) (text : List Char) (delay variation : ℚ)
    (rands : ℕ → ℚ) (hr : ∀ i, 0 ≤ rands i ∧ rands i < 1) :
    (typeAnimated (some e) text delay variation rands).events.countP Event.isKeyType =
      text.length ∧
    keyWaits (typeAnimated (some e) text delay variation rands).events =
      (List.range text.length).map
        (fun k => max 10 (delay + jitterOf variation (rands k))) ∧
    (0 ≤ variation → ∀ k, -variation ≤ jitterOf variation (rands k) ∧
      jitterOf variation (rands k) ≤ variation) ∧
    (delay = 50 → variation = 20 →
      ∀ w ∈ keyWaits (typeAnimated (some e) text delay variation rands).events,
        30 ≤ w ∧ w ≤ 70) := by
  have hev : (typeAnimated (some e) text delay variation rands).events =
      Event.click :: Event.wait 100 :: typeEvents delay variation rands text 0 := rfl
  have hkw : keyWaits (typeAnimated (some e) text delay variation rands).events =
      (List.range text.length).map (fun k => max 10 (charDelay delay variation (rands k))) := by
    rw [hev, keyWaits_after_click, keyWaits_typeEvents]
    simp
  have hcj : ∀ r : ℚ, charDelay delay variation r = delay + jitterOf variation r := by
    intro r
    simp only [charDelay, jitterOf]
    ring
  refine ⟨?_, ?_, ?_, ?_⟩
  · rw [hev]
    simp [List.countP_cons, Event.isKeyType, countP_keyType_typeEvents]
  · rw [hkw]
    refine List.map_congr_left fun k _ => ?_
    rw [hcj]
  · intro hvar k
    obtain ⟨h0, h1⟩ := hr k
    constructor
    · have hf : (0 : ℤ) ≤ ⌊rands k * variation * 2⌋ :=
        Int.floor_nonneg.mpr (mul_nonneg (mul_nonneg h0 hvar) (by norm_num))
      have hfq : (0 : ℚ) ≤ ((⌊rands k * variation * 2⌋ : ℤ) : ℚ) := by exact_mod_cast hf
      simp only [jitterOf]
      linarith
    · have hle : ((⌊rands k * variation * 2⌋ : ℤ) : ℚ) ≤ rands k * variation * 2 :=
        Int.floor_le _
      have h2 : rands k * variation * 2 ≤ 2 * variation := by nlinarith
      simp only [jitterOf]
      linarith
  · intro hd hv w hw
    subst hd
    subst hv
    rw [hkw] at hw
    obtain ⟨k, _, hwk⟩ := List.mem_map.mp hw
    obtain ⟨hb0, hb1⟩ := charDelay_bounds (rands k) (hr k).1 (hr k).2
    have hmax : max (10 : ℚ) (charDelay 50 20 (rands k)) = charDelay 50 20 (rands k) :=
      max_eq_right (by linarith)
    rw [← hwk, hmax]
    exact ⟨hb0, by linarith⟩

/-- C6 witness: typing a two-character text with delay 50, variation 20 and
every random draw equal to 1/2 issues exactly 2 character inputs, the
per-character waits follow the per-index jitter formula, each jitter lies
in [-20, 20], and every wait lies in [30, 70]. -/
theorem typeAnimated_per_char_witness :
    (typeAnimated (some ⟨⟨0, 0, 0, 0⟩, none⟩) ['h', 'i'] 50 20
      (fun _ : ℕ => 1 / 2)).events.countP Event.isKeyType = 2 ∧
    keyWaits (typeAnimated (some ⟨⟨0, 0, 0, 0⟩, none⟩) ['h', 'i'] 50 20
      (fun _ : ℕ => 1 / 2)).events =
      (List.range 2).map
        (fun k => max 10 (50 + jitterOf 20 ((fun _ : ℕ => (1 : ℚ) / 2) k))) ∧
    ((0 : ℚ) ≤ 20 → ∀ k : ℕ, -(20 : ℚ) ≤ jitterOf 20 ((fun _ : ℕ => (1 : ℚ) / 2) k) ∧
      jitterOf 20 ((fun _ : ℕ => (1 : ℚ) / 2) k) ≤ 20) ∧
    ((50 : ℚ) = 50 → (20 : ℚ) = 20 →
      ∀ w ∈ keyWaits (typeAnimated (some ⟨⟨0, 0, 0, 0⟩, none⟩) ['h', 'i'] 50 20
        (fun _ : ℕ => 1 / 2)).events, 30 ≤ w ∧ w ≤ 70) := by
  exact typeAnimated_per_char ⟨⟨0, 0, 0, 0⟩, none⟩ ['h', 'i'] 50 20 (fun _ : ℕ => 1 / 2)
    (fun i => ⟨by norm_num, by norm_num⟩)

theorem keyWaits_typeEvents_ge (delay variation : ℚ) (rands : ℕ → ℚ) :
    ∀ (text : List Char) (i : ℕ) (w : ℚ),
      w ∈ keyWaits (typeEvents delay variation rands text i) → 10 ≤ w := by
  intro text
  induction text with
  | nil =>
    intro i w h
    simp [typeEvents, keyWaits] at h
  | cons c cs ih =>
    intro i w h
    simp only [typeEvents, keyWaits, List.mem_cons] at h
    rcases h with h | h
    · rw [h]; exact le_max_left _ _
    · exact ih (i + 1) w h

/-- C7: for every configured delay and variation (negative or extreme
values included) and every random draw, the wait applied after each typed
character is at least 10 milliseconds. -/
theorem typeAnimated_wait_floor (elem : Option PageElem) (text : List Char)
    (delay variation : ℚ) (rands : ℕ → ℚ) (w : ℚ)
    (hw : w ∈ keyWaits (typeAnimated elem text delay variation rands).events) :
    10 ≤ w := by
  cases elem with
  | none => simp [typeAnimated, typeAnimatedBody, catchAll, keyWaits] at hw
  | some e =>
    have hev : (typeAnimated (some e) text delay variation rands).events =
        Event.click :: Event.wait 100 :: typeEvents delay variation rands text 0 := rfl
    rw [hev, keyWaits_after_click] at hw
    exact keyWaits_typeEvents_ge delay variation rands text 0 w hw

/-- C7 witness: with delay 0, variation 0 and a zero draw, the wait after
the single typed character is exactly the 10ms floor. -/
theorem typeAnimated_wait_floor_witness :
    (10 : ℚ) ∈ keyWaits (typeAnimated (some ⟨⟨0, 0, 0, 0⟩, none⟩) ['a'] 0 0
      (fun _ => 0)).events ∧ (10 : ℚ) ≤ 10 := by
  have hmem : (10 : ℚ) ∈ keyWaits (typeAnimated (some ⟨⟨0, 0, 0, 0⟩, none⟩) ['a'] 0 0
      (fun _ => 0)).events := by
    have hcd : charDelay 0 0 ((fun _ => (0 : ℚ)) 0) = 0 := by
      simp [charDelay]
    have hev : (typeAnimated (some ⟨⟨0, 0, 0, 0⟩, none⟩) ['a'] 0 0 (fun _ => 0)).events =
        Event.click :: Event.wait 100 ::
          typeEvents 0 0 (fun _ => 0) ['a'] 0 := rfl
    rw [hev, keyWaits_after_click]
    simp [typeEvents, keyWaits, hcd]
  exact ⟨hmem, typeAnimated_wait_floor (some ⟨⟨0, 0, 0, 0⟩, none⟩) ['a'] 0 0
    (fun _ => 0) 10 hmem⟩

theorem getLast?_of_suffix {α : Type} (s l : List α) (h : s <:+ l) (hne : s ≠ []) :
    l.getLast? = s.getLast? := by
  obtain ⟨t, rfl⟩ := h
  exact List.getLast?_append_of_ne_nil t hne

theorem webm_suffix_not_mp4 (p : List Char) (h : webmSuffix <:+ p) :
    ¬ mp4Suffix <:+ p := by
  intro h2
  have e1 := getLast?_of_suffix webmSuffix p h (by decide)
  have e2 := getLast?_of_suffix mp4Suffix p h2 (by decide)
  rw [e1] at e2
  exact absurd e2 (by decide)

theorem findRecordedVideo_webm (dir : List Char) (files : List (List Char))
    (p : List Char) (h : findRecordedVideo dir files = some p) : webmSuffix <:+ p := by
  unfold findRecordedVideo at h
  cases hf : files.find? (fun f => webmSuffix.isSuffixOf f) with
  | none => rw [hf] at h; simp at h
  | some f =>
    rw [hf] at h
    simp only [Option.some.injEq] at h
    have hsuf : webmSuffix.isSuffixOf f = true := List.find?_some hf
    have hs2 : webmSuffix <:+ f := by simpa using hsuf
    have hs3 : f <:+ dir ++ '/' :: f := by
      rw [List.append_cons]
      exact List.suffix_append _ _
    rw [← h]
    exact hs2.trans hs3

/-- C8: when conversion is requested but FFmpeg is not installed, the
record command emits the FFmpeg warning and reports the output path of
the recorder unchanged: it still carries the ".webm" extension produced by
findRecordedVideo and never a ".mp4" extension. -/
theorem recordCommand_fallback (dir : List Char) (files : List (List Char))
    (videoPath : List Char) (hfind : findRecordedVideo dir files = some videoPath) :
    (recordCommandFinalize true false videoPath).warnings = [ffmpegMissingWarning] ∧
    (recordCommandFinalize true false videoPath).finalPath = videoPath ∧
    webmSuffix <:+ (recordCommandFinalize true false videoPath).finalPath ∧
    ¬ mp4Suffix <:+ (recordCommandFinalize true false videoPath).finalPath := by
  have hw := findRecordedVideo_webm dir files videoPath hfind
  exact ⟨rfl, rfl, hw, webm_suffix_not_mp4 videoPath hw⟩

/-- C8 witness: a concrete run whose captured video is out/video.webm keeps
that exact path, with the warning emitted. -/
theorem recordCommand_fallback_witness :
    (recordCommandFinalize true false "out/video.webm".toList).warnings =
      [ffmpegMissingWarning] ∧
    (recordCommandFinalize true false "out/video.webm".toList).finalPath =
      "out/video.webm".toList ∧
    webmSuffix <:+ (recordCommandFinalize true false "out/video.webm".toList).finalPath ∧
    ¬ mp4Suffix <:+ (recordCommandFinalize true false "out/video.webm".toList).finalPath :=
  recordCommand_fallback "out".toList ["video.webm".toList] "out/video.webm".toList
    (by decide)

end DemoRecorder
